import Mathlib

/-!
Verification of the VINA-Face recognition greeter against its design
specification.  The Python source is shallowly embedded: pure functions
become Lean functions over exact rationals (standing for the Python
floats), the per-iteration body of the real-time loop becomes an explicit
state-transition function, and I/O outcomes (file reads, subprocess runs,
`cv2.resize` failures) become explicit input parameters.  Python truthiness
of optional strings (`if name:`) is modelled explicitly: `None` and the
empty string are falsy.
-/

namespace VinaFace

/-- `EnrolledFace`: one record of the embedding store, as produced by
`utils/face_utils.py` (a dict with a `name` string and an `embedding`
vector; the vector is modelled as a list of exact rationals). -/
structure EnrolledFace where
  name : String
  embedding : List ℚ
deriving DecidableEq, Repr

/-- `face_utils.compare_embeddings`: cosine similarity of two
(unit-norm) embeddings, i.e. their dot product.  `np.dot` of equal-length
vectors is the sum of pointwise products, embedded exactly over ℚ. -/
def compare_embeddings (emb1 emb2 : List ℚ) : ℚ :=
  (List.zipWith (· * ·) emb1 emb2).sum

/-- `main.SIMILARITY_THRESHOLD = 0.50`. -/
def SIMILARITY_THRESHOLD : ℚ := 1/2

/-- `main.ZOOM_DURATION_SECONDS = 1.7`. -/
def ZOOM_DURATION_SECONDS : ℚ := 17/10

/-- `main.GREETING_COOLDOWN_SECONDS = 5`. -/
def GREETING_COOLDOWN_SECONDS : ℚ := 5

/-- `main.DETECTION_INTERVAL_SECONDS = 0.1`. -/
def DETECTION_INTERVAL_SECONDS : ℚ := 1/10

/-- One iteration of the matching loop of `main.process_frame`
(lines 73-77): update `(best_match_name, max_similarity)` with a store
entry whenever its similarity exceeds both the threshold and the running
maximum. -/
def scanStep (query : List ℚ) (acc : Option String × ℚ) (kf : EnrolledFace) :
    Option String × ℚ :=
  if SIMILARITY_THRESHOLD < compare_embeddings query kf.embedding ∧
      acc.2 < compare_embeddings query kf.embedding then
    (some kf.name, compare_embeddings query kf.embedding)
  else acc

/-- The matching loop of `main.process_frame` (lines 70-77), starting from
`best_match_name = None`, `max_similarity = -1.0`. -/
def process_frame_scan (query : List ℚ) (db : List EnrolledFace) :
    Option String × ℚ :=
  db.foldl (scanStep query) (none, -1)

/-- The matcher half of `main.process_frame`, given the query embedding of
the selected face: empty store short-circuits to `"Unknown"` (line 67-68);
otherwise run the scan and return the tracked name if it is truthy
(`if best_match_name:` — Python: non-`None` and non-empty), else
`"Unknown"`. -/
def process_frame_match (query : List ℚ) (db : List EnrolledFace) : String :=
  if db = [] then "Unknown"
  else
    match (process_frame_scan query db).1 with
    | some n => if n = "" then "Unknown" else n
    | none => "Unknown"

/-- One iteration of the plain running-maximum scan described by the spec
(§4.2): strictly improve the maximum, so the first entry wins exact ties. -/
def maxStep (query : List ℚ) (acc : String × ℚ) (kf : EnrolledFace) :
    String × ℚ :=
  if acc.2 < compare_embeddings query kf.embedding then
    (kf.name, compare_embeddings query kf.embedding)
  else acc

/-- `bestMatch` as worded by the spec (§4.2): compute the similarity to
every stored embedding, track the plain maximum with first-entry-wins on
exact ties, and return the name achieving it iff the maximum strictly
exceeds the threshold; empty store returns `Unmatched` (`"Unknown"`)
immediately. -/
def bestMatchSpec (query : List ℚ) (db : List EnrolledFace) : String :=
  match db with
  | [] => "Unknown"
  | kf :: rest =>
    let best := rest.foldl (maxStep query)
      (kf.name, compare_embeddings query kf.embedding)
    if SIMILARITY_THRESHOLD < best.2 then best.1 else "Unknown"

/-- Projection linking the two running states: the code's thresholded
state is determined by the plain maximum state. -/
def thresholdProj (p : String × ℚ) : Option String × ℚ :=
  if SIMILARITY_THRESHOLD < p.2 then (some p.1, p.2) else (none, -1)

/-- Bounding box `(x1, y1, x2, y2)` in frame pixel coordinates, after the
source's `bbox.astype(int)` cast. -/
structure BBox where
  x1 : ℤ
  y1 : ℤ
  x2 : ℤ
  y2 : ℤ
deriving DecidableEq, Repr

/-- An InsightFace detection as consumed by this code: a bounding box and
a possibly-absent normalized embedding. -/
structure Face where
  bbox : BBox
  normed_embedding : Option (List ℚ)
deriving DecidableEq, Repr

/-- Squared distance from the centre of a face's bounding box to the frame
centre (`face_utils.get_center_most_face`, lines 48-60). -/
def face_dist_sq (frame_width frame_height : ℚ) (f : Face) : ℚ :=
  (((f.bbox.x1 : ℚ) + (f.bbox.x2 : ℚ)) / 2 - frame_width / 2) ^ 2 +
    (((f.bbox.y1 : ℚ) + (f.bbox.y2 : ℚ)) / 2 - frame_height / 2) ^ 2

/-- One iteration of `get_center_most_face`'s loop: `min_dist_sq` starts
at `float('inf')`, modelled as `none` (any finite distance beats it); a
later face replaces the tracked one only on strictly smaller distance. -/
def centerStep (frame_width frame_height : ℚ) (acc : Option Face × Option ℚ)
    (f : Face) : Option Face × Option ℚ :=
  match acc.2 with
  | none => (some f, some (face_dist_sq frame_width frame_height f))
  | some m =>
    if face_dist_sq frame_width frame_height f < m then
      (some f, some (face_dist_sq frame_width frame_height f))
    else acc

/-- `face_utils.get_center_most_face`: `None` on the empty detection list,
otherwise scan all detections keeping the one strictly closest to the
frame centre. -/
def get_center_most_face (faces : List Face)
    (frame_width frame_height : ℚ) : Option Face :=
  if faces = [] then none
  else (faces.foldl (centerStep frame_width frame_height) (none, none)).1

/-- A camera frame, abstracted to what the embedded code inspects:
`frame.shape[:2] = (rows, cols)`, i.e. height and width in pixels. -/
structure PyFrame where
  rows : ℕ
  cols : ℕ
deriving DecidableEq, Repr

/-- The image returned by `zoom_utils.get_zoomed_region`: either the
resized padded crop or the all-black fallback, each carrying its pixel
size `(width, height)`. -/
inductive ZoomImage where
  | resized (w h : ℕ)
  | black (w h : ℕ)
deriving DecidableEq, Repr

/-- Pixel size `(width, height)` of a `ZoomImage`. -/
def zoomImageSize : ZoomImage → ℕ × ℕ
  | .resized w h => (w, h)
  | .black w h => (w, h)

/-- Length of the numpy basic slice `a[start:stop]` over an axis of length
`n`: a negative index counts from the end, then the range is clipped to
`[0, n]`. -/
def npSliceLen (n : ℕ) (start stop : ℤ) : ℕ :=
  let s := min (max 0 (if start < 0 then start + n else start)) (n : ℤ)
  let e := min (max 0 (if stop < 0 then stop + n else stop)) (n : ℤ)
  (e - s).toNat

/-- `zoom_utils.get_zoomed_region(frame, bbox, target_display_size,
padding_factor=0.3)`: `None` on a `None` frame or box or a box of
non-positive width/height; otherwise pad the box by 30 % per dimension
(`int(dim * 0.3)`, truncation of a positive value, embedded as floor of
`3·dim/10`; the float rounding of `0.3` is abstracted), clamp to the
frame, crop, and resize to `target_display_size`; an empty crop or a
`cv2.resize` error (injected as the input `resize_ok`) falls back to an
all-black image of the target size. -/
def get_zoomed_region (frame : Option PyFrame) (bbox : Option BBox)
    (target_display_size : ℕ × ℕ) (resize_ok : Bool) : Option ZoomImage :=
  match frame, bbox with
  | none, _ => none
  | some _, none => none
  | some fr, some b =>
    let bb_w := b.x2 - b.x1
    let bb_h := b.y2 - b.y1
    if bb_w ≤ 0 ∨ bb_h ≤ 0 then none
    else
      let pad_w := 3 * bb_w / 10
      let pad_h := 3 * bb_h / 10
      let crop_x1 := max 0 (b.x1 - pad_w)
      let crop_y1 := max 0 (b.y1 - pad_h)
      let crop_x2 := min (fr.cols : ℤ) (b.x2 + pad_w)
      let crop_y2 := min (fr.rows : ℤ) (b.y2 + pad_h)
      if npSliceLen fr.rows crop_y1 crop_y2 = 0 ∨
          npSliceLen fr.cols crop_x1 crop_x2 = 0 then
        some (.black target_display_size.1 target_display_size.2)
      else if resize_ok then
        some (.resized target_display_size.1 target_display_size.2)
      else
        some (.black target_display_size.1 target_display_size.2)

/-- The per-person greeting timestamps, `main.last_greeted_time`, a Python
dict modelled as an association list. -/
def dictGet (d : List (String × ℚ)) (k : String) : Option ℚ :=
  match d with
  | [] => none
  | (k2, v) :: rest => if k2 = k then some v else dictGet rest k

/-- `d[k] = v` on a Python dict: update in place or append. -/
def dictSet (d : List (String × ℚ)) (k : String) (v : ℚ) :
    List (String × ℚ) :=
  match d with
  | [] => [(k, v)]
  | (k2, v2) :: rest =>
    if k2 = k then (k, v) :: rest else (k2, v2) :: dictSet rest k v

/-- The mutable loop state of `main.main_loop` (lines 96-100 plus the
global `last_greeted_time`). -/
structure MainState where
  zoom_active : Bool
  zoom_return_time : ℚ
  name_to_greet_after_zoom : Option String
  last_detection_run_time : ℚ
  current_processing_bbox_for_zoom : Option BBox
  last_greeted_time : List (String × ℚ)
deriving Repr

/-- What one loop iteration reads from the outside world: the current
`time.time()`, the captured frame, the result `process_frame` would
return on it (`none` for "no face", otherwise the recognized name — which
may be `"Unknown"` — and the selected bounding box), and whether
`cv2.resize` succeeds this iteration. -/
structure LoopInput where
  now : ℚ
  frame : PyFrame
  det : Option (String × BBox)
  resize_ok : Bool
deriving Repr

/-- The zoom phase of one iteration of `main.main_loop` (lines 120-142).
Returns the updated state and the greeting dispatched to `tts.speak`, if
any.  When the zoom window has elapsed (`current_time >=
zoom_return_time`) the session ends: a truthy pending target other than
`"Unknown"` is greeted and stamped in `last_greeted_time`, and the
pending target is cleared.  Otherwise the zoomed crop is rendered; if it
cannot be produced, or no box was recorded, the session is force-ended
with pending state cleared. -/
def zoomPhase (inp : LoopInput) (s : MainState) : MainState × Option String :=
  if s.zoom_active then
    if s.zoom_return_time ≤ inp.now then
      match s.name_to_greet_after_zoom with
      | some n =>
        if n ≠ "" ∧ n ≠ "Unknown" then
          ({ s with zoom_active := false,
                    current_processing_bbox_for_zoom := none,
                    last_greeted_time := dictSet s.last_greeted_time n inp.now,
                    name_to_greet_after_zoom := none }, some n)
        else
          ({ s with zoom_active := false,
                    current_processing_bbox_for_zoom := none,
                    name_to_greet_after_zoom := none }, none)
      | none =>
        ({ s with zoom_active := false,
                  current_processing_bbox_for_zoom := none,
                  name_to_greet_after_zoom := none }, none)
    else
      match s.current_processing_bbox_for_zoom with
      | some b =>
        match get_zoomed_region (some inp.frame) (some b)
            (inp.frame.cols, inp.frame.rows) inp.resize_ok with
        | some _ => (s, none)
        | none =>
          ({ s with zoom_active := false,
                    current_processing_bbox_for_zoom := none,
                    name_to_greet_after_zoom := none }, none)
      | none =>
        ({ s with zoom_active := false,
                  name_to_greet_after_zoom := none }, none)
  else (s, none)

/-- The detection phase of one iteration of `main.main_loop`
(lines 145-167): if zoom is inactive and more than
`DETECTION_INTERVAL_SECONDS` have elapsed since the last detection pass,
run detection; on a result carrying a box, record the box, and on a
truthy name start a zoom session ending at `now + ZOOM_DURATION_SECONDS`,
with the pending greet target set iff the name is recognized and either
never greeted or out of its cooldown. -/
def detectPhase (inp : LoopInput) (s : MainState) : MainState :=
  if s.zoom_active = false ∧
      DETECTION_INTERVAL_SECONDS < inp.now - s.last_detection_run_time then
    let s2 := { s with last_detection_run_time := inp.now }
    match inp.det with
    | some (recognized_name, face_bbox) =>
      let s3 := { s2 with current_processing_bbox_for_zoom := some face_bbox }
      if recognized_name ≠ "" then
        let s4 := { s3 with zoom_active := true,
                            zoom_return_time := inp.now + ZOOM_DURATION_SECONDS }
        if recognized_name ≠ "Unknown" then
          if dictGet s4.last_greeted_time recognized_name = none ∨
              GREETING_COOLDOWN_SECONDS < inp.now -
                (dictGet s4.last_greeted_time recognized_name).getD 0 then
            { s4 with name_to_greet_after_zoom := some recognized_name }
          else
            { s4 with name_to_greet_after_zoom := none }
        else
          { s4 with name_to_greet_after_zoom := none }
      else s3
    | none => s2
  else s

/-- One full iteration of `main.main_loop`: zoom phase, then detection
phase on the resulting state.  Second component: the greeting dispatched
this iteration, if any. -/
def mainStep (inp : LoopInput) (s : MainState) : MainState × Option String :=
  let z := zoomPhase inp s
  (detectPhase inp z.1, z.2)

/-- A run of consecutive loop iterations: final state and the list of all
greetings dispatched, in order. -/
def runTrace (inputs : List LoopInput) (s : MainState) :
    MainState × List String :=
  inputs.foldl
    (fun acc inp =>
      let r := mainStep inp acc.1
      (r.1, acc.2 ++ r.2.toList))
    (s, [])

/-- A value stored under the `name` key of a persisted record: a string,
or something of another runtime type. -/
inductive PyName where
  | str (s : String)
  | nonstr
deriving DecidableEq, Repr

/-- One element of the unpickled list: whether it is a dict, and its
`name` / `embedding` fields when present (`none` = key absent). -/
structure RawItem where
  is_dict : Bool
  name : Option PyName
  embedding : Option (List ℚ)
deriving DecidableEq, Repr

/-- The value recovered by `pickle.load`: a list of items, or data of some
other shape. -/
inductive PickleContent where
  | notAList
  | aList (items : List RawItem)
deriving DecidableEq, Repr

/-- What opening and unpickling the database file can yield:
`FileNotFoundError`; `EOFError` / `pickle.UnpicklingError` / any other
exception while reading; or a successfully unpickled value. -/
inductive DbFile where
  | missing
  | unreadable
  | readable (content : PickleContent)
deriving DecidableEq, Repr

/-- The validation applied to each unpickled item by
`face_utils.load_known_faces` (lines 86-95): keep it iff it is a dict
with both a `name` and an `embedding` field whose name is a string. -/
def validEntry (item : RawItem) : Option EnrolledFace :=
  if item.is_dict then
    match item.name, item.embedding with
    | some (.str s), some e => some (EnrolledFace.mk s e)
    | _, _ => none
  else none

/-- `face_utils.load_known_faces` (lines 79-106): missing, corrupt or
unreadable content and non-list data all yield the empty store (with a
logged warning); a list is scanned in order, accumulating the entries
that pass validation and dropping the rest. -/
def load_known_faces (f : DbFile) : List EnrolledFace :=
  match f with
  | .missing => []
  | .unreadable => []
  | .readable .notAList => []
  | .readable (.aList items) =>
    items.foldl
      (fun valid_data item =>
        match validEntry item with
        | some e => valid_data ++ [e]
        | none => valid_data)
      []

/-- Abstract states of the persisted database file. -/
inductive PersistedFile where
  | absent
  | complete (data : List EnrolledFace)
  | truncated
deriving DecidableEq, Repr

/-- Outcome of the `pickle.dump` call, injected by the environment: it
either writes the whole store or fails part-way (disk full, interrupt,
unpicklable data, ...). -/
inductive DumpOutcome where
  | success
  | failMidway
deriving DecidableEq, Repr

/-- `face_utils.save_known_faces` (lines 109-116): `open(db_path, 'wb')`
truncates the file in place, then `pickle.dump` writes the new bytes into
it; there is no temporary file or rename.  The surrounding `try/except`
catches any failure and only logs it, so the function returns normally
either way (second component: whether the save completed and was logged
as successful).  The previous file state is destroyed in both cases. -/
def save_known_faces (data : List EnrolledFace) (file : PersistedFile)
    (outcome : DumpOutcome) : PersistedFile × Bool :=
  match file, outcome with
  | _, .success => (.complete data, true)
  | _, .failMidway => (.truncated, false)

/-- Re-reading a persisted file state: a complete file unpickles to the
list of saved records; a truncated or partial file raises
`EOFError`/`UnpicklingError`. -/
def readPersisted : PersistedFile → DbFile
  | .absent => .missing
  | .truncated => .unreadable
  | .complete data =>
    .readable (.aList (data.map
      (fun e => RawItem.mk true (some (.str e.name)) (some e.embedding))))

/-- Python `str.strip()`: drop leading and trailing whitespace, embedded
at the character-list level (`String.trim` itself is not used because the
proofs evaluate this on literals). -/
def pyStrip (s : String) : String :=
  String.mk (((s.data.dropWhile Char.isWhitespace).reverse.dropWhile
    Char.isWhitespace).reverse)

/-- Python `str.lower()`, embedded at the character-list level. -/
def pyLower (s : String) : String :=
  String.mk (s.data.map Char.toLower)

/-- The store-update portion of `enroll_from_image.enroll_from_image`
(lines 78-97): trim the name and reject it when empty; on a name
collision, ask for confirmation (the operator's answer is the input
`overwrite`) and either abort or drop the colliding entries; finally
append the new record.  `none` is the aborted/failure result (the store
is not saved). -/
def enroll (known_faces_db : List EnrolledFace) (person_name : String)
    (embedding : List ℚ) (overwrite : Bool) : Option (List EnrolledFace) :=
  let name_to_enroll := pyStrip person_name
  if name_to_enroll = "" then none
  else if name_to_enroll ∈ known_faces_db.map EnrolledFace.name then
    if overwrite then
      some ((known_faces_db.filter (fun f => f.name ≠ name_to_enroll)) ++
        [EnrolledFace.mk name_to_enroll embedding])
    else none
  else some (known_faces_db ++ [EnrolledFace.mk name_to_enroll embedding])

/-- `tts.TTS_MIN_INTERVAL = 0.5`. -/
def TTS_MIN_INTERVAL : ℚ := 1/2

/-- Outcome of the `subprocess.run(['say', text])` call. -/
inductive SayOutcome where
  | ok
  | failed
deriving DecidableEq, Repr

/-- The body of `tts.speak`'s background `_speak_task` (lines 18-37),
which runs under `tts_lock` and is therefore serialized.  The shared
state is `last_tts_call_time`; `enter_time` is the `time.time()` read
once the lock is acquired — a request arriving while a previous `say`
call is still running blocks on the lock until that call finishes — and
`end_time` is the `time.time()` read after the `say` call returns.
Result: the new `last_tts_call_time` (advanced only on success) and
whether `say` was invoked at all. -/
def speak_task (last_tts_call_time : ℚ) (enter_time end_time : ℚ)
    (outcome : SayOutcome) : ℚ × Bool :=
  if enter_time - last_tts_call_time < TTS_MIN_INTERVAL then
    (last_tts_call_time, false)
  else
    match outcome with
    | .ok => (end_time, true)
    | .failed => (last_tts_call_time, true)

/-- Outcome of the blocking `input()` call at the enrollment name
prompt. -/
inductive PromptResult where
  | entered (raw : String)
  | keyboardInterrupt
  | endOfInput
deriving DecidableEq, Repr

/-- What the enrollment loop does right after the name prompt. -/
inductive LoopControl where
  | continueLoop
  | exitLoop
  | proceed (name : String)
deriving DecidableEq, Repr

/-- `face_enroll.enroll_face`, lines 133-148: the name prompt and its
cancellation handling.  `KeyboardInterrupt` → `continue`; `EOFError` →
`break`; otherwise the input is stripped and the literal token `cancel`
(case-insensitively) or an empty name also `continue`s; any other name
proceeds to the overwrite check and store append.  The store is touched
only on the `proceed` path. -/
def handle_name_prompt (r : PromptResult) : LoopControl :=
  match r with
  | .keyboardInterrupt => .continueLoop
  | .endOfInput => .exitLoop
  | .entered raw =>
    let name := pyStrip raw
    if pyLower name = "cancel" ∨ name = "" then .continueLoop
    else .proceed name

lemma scanStep_thresholdProj (query : List ℚ) (p : String × ℚ)
    (kf : EnrolledFace) :
    scanStep query (thresholdProj p) kf = thresholdProj (maxStep query p kf) := by
  unfold scanStep thresholdProj maxStep
  rcases p with ⟨n, m⟩
  by_cases hs : SIMILARITY_THRESHOLD < compare_embeddings query kf.embedding
  · by_cases hm : SIMILARITY_THRESHOLD < m
    · by_cases hlt : m < compare_embeddings query kf.embedding
      · simp [hs, hm, hlt]
      · simp [hm, hlt]
    · have hlt : m < compare_embeddings query kf.embedding := by
        have : m ≤ SIMILARITY_THRESHOLD := le_of_not_lt hm
        linarith
      have h1 : (-1 : ℚ) < compare_embeddings query kf.embedding := by
        have : (-1 : ℚ) < SIMILARITY_THRESHOLD := by norm_num [SIMILARITY_THRESHOLD]
        linarith
      simp [hs, hm, hlt, h1]
  · by_cases hm : SIMILARITY_THRESHOLD < m
    · have hlt : ¬ m < compare_embeddings query kf.embedding := by
        intro h; exact hs (lt_trans hm h)
      simp [hs, hm, hlt]
    · by_cases hlt : m < compare_embeddings query kf.embedding
      · simp [hs, hm, hlt]
      · simp [hs, hm, hlt]

/-- The projection commutes with the whole fold. -/
lemma scan_fold_relation (query : List ℚ) (rest : List EnrolledFace)
    (p : String × ℚ) :
    rest.foldl (scanStep query) (thresholdProj p) =
      thresholdProj (rest.foldl (maxStep query) p) := by
  induction rest generalizing p with
  | nil => rfl
  | cons kf tl ih =>
    simp only [List.foldl_cons, scanStep_thresholdProj]
    exact ih (maxStep query p kf)

/-- The name tracked by the plain maximum fold comes from the initial state
or from the list. -/
lemma maxfold_name_mem (query : List ℚ) (l : List EnrolledFace) :
    ∀ p : String × ℚ,
      (l.foldl (maxStep query) p).1 = p.1 ∨
        ∃ kf ∈ l, (l.foldl (maxStep query) p).1 = kf.name := by
  induction l with
  | nil => intro p; left; rfl
  | cons kf tl ih =>
    intro p
    simp only [List.foldl_cons]
    rcases ih (maxStep query p kf) with h1 | ⟨kf2, hkf2, h2⟩
    · by_cases hlt : p.2 < compare_embeddings query kf.embedding
      · right
        refine ⟨kf, List.mem_cons_self kf tl, ?_⟩
        rw [h1]
        simp [maxStep, hlt]
      · left
        rw [h1]
        simp [maxStep, hlt]
    · right
      exact ⟨kf2, List.mem_cons_of_mem kf hkf2, h2⟩

/-- The code's matcher agrees with the spec's `bestMatch` algorithm on
every store whose names are non-empty (the data-model invariant of
`EnrolledFace`). -/
lemma process_frame_match_eq_spec (query : List ℚ) (db : List EnrolledFace)
    (hname : ∀ kf ∈ db, kf.name ≠ "") :
    process_frame_match query db = bestMatchSpec query db := by
  match db with
  | [] => rfl
  | kf :: rest =>
    unfold process_frame_match bestMatchSpec process_frame_scan
    simp only [reduceCtorEq, if_neg (List.cons_ne_nil kf rest), List.foldl_cons]
    have hinit : scanStep query (none, -1) kf =
        thresholdProj (kf.name, compare_embeddings query kf.embedding) := by
      unfold scanStep thresholdProj
      by_cases hs : SIMILARITY_THRESHOLD < compare_embeddings query kf.embedding
      · have h1 : (-1 : ℚ) < compare_embeddings query kf.embedding := by
          have : (-1 : ℚ) < SIMILARITY_THRESHOLD := by norm_num [SIMILARITY_THRESHOLD]
          linarith
        simp [hs, h1]
      · simp [hs]
    rw [hinit, scan_fold_relation]
    set best := rest.foldl (maxStep query)
      (kf.name, compare_embeddings query kf.embedding) with hbest
    unfold thresholdProj
    by_cases h : SIMILARITY_THRESHOLD < best.2
    · simp only [if_pos h]
      have hmem := maxfold_name_mem query rest
        (kf.name, compare_embeddings query kf.embedding)
      have hne : best.1 ≠ "" := by
        rcases hmem with h1 | ⟨kf2, hkf2, h2⟩
        · rw [hbest, h1]; exact hname kf (List.mem_cons_self kf rest)
        · rw [hbest, h2]; exact hname kf2 (List.mem_cons_of_mem kf hkf2)
      simp [hne]
    · simp [h]

/-- **C1.** For every query embedding and every store (whose names are
non-empty, the `EnrolledFace` data-model invariant), the matcher of
`main.process_frame` implements exactly the spec policy `bestMatchSpec`:
similarity to every stored embedding, name of the maximum iff the maximum
strictly exceeds the `0.50` threshold, `"Unknown"` otherwise, first entry
winning exact ties; and the empty store yields `"Unknown"` immediately. -/
theorem C1_matcher_best_match_policy (query : List ℚ) (db : List EnrolledFace)
    (hname : ∀ kf ∈ db, kf.name ≠ "") :
    process_frame_match query db = bestMatchSpec query db ∧
    process_frame_match query [] = "Unknown" :=
  ⟨process_frame_match_eq_spec query db hname, rfl⟩

/-- Witness for C1 at a concrete two-entry store. -/
theorem C1_matcher_best_match_policy_witness :
    (∀ kf ∈ [EnrolledFace.mk "Alice" [1], EnrolledFace.mk "Bob" [0]],
        kf.name ≠ "") ∧
    (process_frame_match [1] [EnrolledFace.mk "Alice" [1], EnrolledFace.mk "Bob" [0]] =
        bestMatchSpec [1] [EnrolledFace.mk "Alice" [1], EnrolledFace.mk "Bob" [0]] ∧
      process_frame_match [1] [] = "Unknown") :=
  ⟨by decide, C1_matcher_best_match_policy [1]
    [EnrolledFace.mk "Alice" [1], EnrolledFace.mk "Bob" [0]] (by decide)⟩

/-- The selection loop, started on a face `f0` already tracked, returns
the first detection of `f0 :: l` achieving the minimum squared distance:
it is a minimiser, and every earlier detection is strictly farther. -/
lemma centerFold_argmin (w h : ℚ) (l : List Face) :
    ∀ f0 : Face,
      ∃ i : ℕ, ∃ hi : i < (f0 :: l).length,
        (l.foldl (centerStep w h) (some f0, some (face_dist_sq w h f0))).1 =
          some ((f0 :: l).get ⟨i, hi⟩) ∧
        (∀ j : ℕ, ∀ hj : j < (f0 :: l).length,
          face_dist_sq w h ((f0 :: l).get ⟨i, hi⟩) ≤
            face_dist_sq w h ((f0 :: l).get ⟨j, hj⟩)) ∧
        (∀ j : ℕ, ∀ hj : j < i,
          face_dist_sq w h ((f0 :: l).get ⟨i, hi⟩) <
            face_dist_sq w h ((f0 :: l).get ⟨j, Nat.lt_trans hj hi⟩)) := by
  induction l with
  | nil =>
    intro f0
    refine ⟨0, by simp, rfl, ?_, ?_⟩
    · intro j hj
      have hj0 : j = 0 := by simpa using Nat.lt_one_iff.mp (by simpa using hj)
      subst hj0
      exact le_refl _
    · intro j hj
      exact absurd hj (Nat.not_lt_zero j)
  | cons f1 tl ih =>
    intro f0
    have hstep : centerStep w h (some f0, some (face_dist_sq w h f0)) f1 =
        if face_dist_sq w h f1 < face_dist_sq w h f0 then
          (some f1, some (face_dist_sq w h f1))
        else (some f0, some (face_dist_sq w h f0)) := rfl
    rw [List.foldl_cons, hstep]
    by_cases hlt : face_dist_sq w h f1 < face_dist_sq w h f0
    · rw [if_pos hlt]
      obtain ⟨i, hi, heq, hmin, hfirst⟩ := ih f1
      refine ⟨i + 1, by simpa using Nat.succ_lt_succ hi, ?_, ?_, ?_⟩
      · simpa using heq
      · intro j hj
        match j with
        | 0 =>
          simp only [List.get_cons_succ, List.get_cons_zero]
          have h1 := hmin 0 (Nat.succ_pos _)
          simp only [List.get_cons_zero] at h1
          exact le_trans h1 (le_of_lt hlt)
        | Nat.succ k =>
          simp only [List.get_cons_succ]
          exact hmin k (Nat.lt_of_succ_lt_succ hj)
      · intro j hj
        match j with
        | 0 =>
          simp only [List.get_cons_succ, List.get_cons_zero]
          have h1 := hmin 0 (Nat.succ_pos _)
          simp only [List.get_cons_zero] at h1
          exact lt_of_le_of_lt h1 hlt
        | Nat.succ k =>
          simp only [List.get_cons_succ]
          exact hfirst k (Nat.lt_of_succ_lt_succ hj)
    · rw [if_neg hlt]
      have hge : face_dist_sq w h f0 ≤ face_dist_sq w h f1 := le_of_not_lt hlt
      obtain ⟨i, hi, heq, hmin, hfirst⟩ := ih f0
      match i, hi with
      | 0, hi =>
        refine ⟨0, Nat.succ_pos _, ?_, ?_, ?_⟩
        · simpa using heq
        · intro j hj
          match j with
          | 0 => exact le_refl _
          | 1 =>
            simp only [List.get_cons_zero, List.get_cons_succ]
            exact hge
          | Nat.succ (Nat.succ k) =>
            simp only [List.get_cons_zero, List.get_cons_succ]
            have h1 := hmin (k + 1) (Nat.lt_of_succ_lt_succ hj)
            simpa using h1
        · intro j hj
          exact absurd hj (Nat.not_lt_zero j)
      | Nat.succ i', hi =>
        refine ⟨i' + 2, Nat.succ_lt_succ hi, ?_, ?_, ?_⟩
        · simpa using heq
        · intro j hj
          match j with
          | 0 =>
            have h1 := hmin 0 (Nat.succ_pos _)
            simpa using h1
          | 1 =>
            have h1 := hmin 0 (Nat.succ_pos _)
            simp only [List.get_cons_zero, List.get_cons_succ] at h1 ⊢
            exact le_trans h1 hge
          | Nat.succ (Nat.succ k) =>
            have h1 := hmin (k + 1) (Nat.lt_of_succ_lt_succ hj)
            simpa using h1
        · intro j hj
          match j with
          | 0 =>
            have h1 := hfirst 0 (Nat.succ_pos _)
            simpa using h1
          | 1 =>
            have h1 := hfirst 0 (Nat.succ_pos _)
            simp only [List.get_cons_zero, List.get_cons_succ] at h1 ⊢
            exact lt_of_lt_of_le h1 hge
          | Nat.succ (Nat.succ k) =>
            have h1 := hfirst (k + 1) (Nat.lt_of_succ_lt_succ hj)
            simpa using h1

/-- **C8.** The centre-most selector returns `None` on the empty list, and
on a non-empty list returns the detection whose bounding-box centre has
minimum squared Euclidean distance to the frame centre, with equidistant
ties resolved to the first detection encountered. -/
theorem C8_center_most_selector (faces : List Face) (w h : ℚ)
    (hne : faces ≠ []) :
    get_center_most_face [] w h = none ∧
    ∃ i : ℕ, ∃ hi : i < faces.length,
      get_center_most_face faces w h = some (faces.get ⟨i, hi⟩) ∧
      (∀ j : ℕ, ∀ hj : j < faces.length,
        face_dist_sq w h (faces.get ⟨i, hi⟩) ≤
          face_dist_sq w h (faces.get ⟨j, hj⟩)) ∧
      (∀ j : ℕ, ∀ hj : j < i,
        face_dist_sq w h (faces.get ⟨i, hi⟩) <
          face_dist_sq w h (faces.get ⟨j, Nat.lt_trans hj hi⟩)) := by
  refine ⟨rfl, ?_⟩
  match faces, hne with
  | f0 :: l, _ =>
    have hrw : get_center_most_face (f0 :: l) w h =
        (l.foldl (centerStep w h) (some f0, some (face_dist_sq w h f0))).1 := by
      unfold get_center_most_face
      rw [if_neg (List.cons_ne_nil f0 l), List.foldl_cons]
      rfl
    obtain ⟨i, hi, heq, hmin, hfirst⟩ := centerFold_argmin w h l f0
    exact ⟨i, hi, hrw.trans heq, hmin, hfirst⟩

/-- Witness for C8: the spec's §8 example, two boxes `(0,0,10,10)` and
`(90,90,100,100)` in a 100×100 frame (equidistant, so the first wins). -/
theorem C8_center_most_selector_witness :
    ([Face.mk (BBox.mk 0 0 10 10) none,
        Face.mk (BBox.mk 90 90 100 100) none] ≠ ([] : List Face)) ∧
    (get_center_most_face [] 100 100 = none ∧
      ∃ i : ℕ, ∃ hi : i < ([Face.mk (BBox.mk 0 0 10 10) none,
          Face.mk (BBox.mk 90 90 100 100) none] : List Face).length,
        get_center_most_face [Face.mk (BBox.mk 0 0 10 10) none,
            Face.mk (BBox.mk 90 90 100 100) none] 100 100 =
          some (([Face.mk (BBox.mk 0 0 10 10) none,
            Face.mk (BBox.mk 90 90 100 100) none] : List Face).get ⟨i, hi⟩) ∧
        (∀ j : ℕ, ∀ hj : j < ([Face.mk (BBox.mk 0 0 10 10) none,
            Face.mk (BBox.mk 90 90 100 100) none] : List Face).length,
          face_dist_sq 100 100 (([Face.mk (BBox.mk 0 0 10 10) none,
              Face.mk (BBox.mk 90 90 100 100) none] : List Face).get ⟨i, hi⟩) ≤
            face_dist_sq 100 100 (([Face.mk (BBox.mk 0 0 10 10) none,
              Face.mk (BBox.mk 90 90 100 100) none] : List Face).get ⟨j, hj⟩)) ∧
        (∀ j : ℕ, ∀ hj : j < i,
          face_dist_sq 100 100 (([Face.mk (BBox.mk 0 0 10 10) none,
              Face.mk (BBox.mk 90 90 100 100) none] : List Face).get ⟨i, hi⟩) <
            face_dist_sq 100 100 (([Face.mk (BBox.mk 0 0 10 10) none,
              Face.mk (BBox.mk 90 90 100 100) none] : List Face).get
                ⟨j, Nat.lt_trans hj hi⟩))) :=
  ⟨by decide,
    C8_center_most_selector [Face.mk (BBox.mk 0 0 10 10) none,
      Face.mk (BBox.mk 90 90 100 100) none] 100 100 (by decide)⟩

lemma dictGet_dictSet_self (d : List (String × ℚ)) (k : String) (v : ℚ) :
    dictGet (dictSet d k v) k = some v := by
  induction d with
  | nil => simp [dictSet, dictGet]
  | cons p rest ih =>
    rcases p with ⟨k2, v2⟩
    by_cases h : k2 = k
    · simp [dictSet, dictGet, h]
    · simp [dictSet, dictGet, h, ih]

/-- A box with positive width and height always yields an image of the
target size (possibly the black fallback), never `None`. -/
lemma get_zoomed_region_pos (fr : PyFrame) (b : BBox) (target : ℕ × ℕ)
    (ok : Bool) (hw : 0 < b.x2 - b.x1) (hh : 0 < b.y2 - b.y1) :
    ∃ img, get_zoomed_region (some fr) (some b) target ok = some img ∧
      zoomImageSize img = target := by
  have hcond : ¬ (b.x2 - b.x1 ≤ 0 ∨ b.y2 - b.y1 ≤ 0) := by
    push_neg
    exact ⟨hw, hh⟩
  simp only [get_zoomed_region]
  rw [if_neg hcond]
  split
  · exact ⟨_, rfl, rfl⟩
  · split
    · exact ⟨_, rfl, rfl⟩
    · exact ⟨_, rfl, rfl⟩

lemma mainStep_fst (inp : LoopInput) (s : MainState) :
    (mainStep inp s).1 = detectPhase inp (zoomPhase inp s).1 := rfl

lemma mainStep_snd (inp : LoopInput) (s : MainState) :
    (mainStep inp s).2 = (zoomPhase inp s).2 := rfl

/-- While a zoom session is active the detection block is skipped. -/
lemma detectPhase_skip_active (inp : LoopInput) (s : MainState)
    (hz : s.zoom_active = true) : detectPhase inp s = s := by
  have hskip : ¬ (s.zoom_active = false ∧
      DETECTION_INTERVAL_SECONDS < inp.now - s.last_detection_run_time) := by
    rintro ⟨h1, -⟩
    rw [hz] at h1
    simp at h1
  unfold detectPhase
  rw [if_neg hskip]

/-- During an active zoom window with a recorded positive box, one loop
iteration changes nothing: the crop renders, no greeting fires, and the
detection block is skipped. -/
lemma mainStep_zoom_hold (inp : LoopInput) (s : MainState) (b : BBox)
    (hz : s.zoom_active = true) (ht : inp.now < s.zoom_return_time)
    (hb : s.current_processing_bbox_for_zoom = some b)
    (hw : 0 < b.x2 - b.x1) (hh : 0 < b.y2 - b.y1) :
    mainStep inp s = (s, none) := by
  obtain ⟨img, himg, -⟩ := get_zoomed_region_pos inp.frame b
    (inp.frame.cols, inp.frame.rows) inp.resize_ok hw hh
  have hzoom : zoomPhase inp s = (s, none) := by
    unfold zoomPhase
    rw [hb]
    simp [hz, not_le.mpr ht, himg]
  have h1 : (mainStep inp s).1 = s := by
    rw [mainStep_fst, hzoom]
    exact detectPhase_skip_active inp s hz
  have h2 : (mainStep inp s).2 = none := by
    rw [mainStep_snd, hzoom]
  have hpair : mainStep inp s = ((mainStep inp s).1, (mainStep inp s).2) := rfl
  rw [hpair, h1, h2]

/-- During an active zoom window with a positive box, a whole run of
iterations changes nothing and greets nobody. -/
lemma runTrace_zoom_hold (s : MainState) (b : BBox)
    (hz : s.zoom_active = true)
    (hb : s.current_processing_bbox_for_zoom = some b)
    (hw : 0 < b.x2 - b.x1) (hh : 0 < b.y2 - b.y1) :
    ∀ inputs : List LoopInput,
      (∀ inp ∈ inputs, inp.now < s.zoom_return_time) →
      runTrace inputs s = (s, []) := by
  intro inputs
  induction inputs with
  | nil => intro _; rfl
  | cons inp tl ih =>
    intro hall
    have h1 := mainStep_zoom_hold inp s b hz
      (hall inp (List.mem_cons_self inp tl)) hb hw hh
    have h2 : ∀ inp2 ∈ tl, inp2.now < s.zoom_return_time :=
      fun inp2 hmem => hall inp2 (List.mem_cons_of_mem inp hmem)
    unfold runTrace at ih ⊢
    simp only [List.foldl_cons, h1]
    exact ih h2

/-- At an iteration whose time has reached the scheduled end, the zoom
phase transitions to idle: it clears the pending target, leaves the
detection clock alone, and either greets nobody or greets exactly the
recorded pending target, stamping its timestamp. -/
lemma zoomPhase_end (inp : LoopInput) (s : MainState)
    (hz : s.zoom_active = true) (ht : s.zoom_return_time ≤ inp.now) :
    (zoomPhase inp s).1.zoom_active = false ∧
    (zoomPhase inp s).1.name_to_greet_after_zoom = none ∧
    (zoomPhase inp s).1.last_detection_run_time = s.last_detection_run_time ∧
    (((zoomPhase inp s).2 = none ∧
        (zoomPhase inp s).1.last_greeted_time = s.last_greeted_time) ∨
      ∃ g, (zoomPhase inp s).2 = some g ∧
        s.name_to_greet_after_zoom = some g ∧
        (zoomPhase inp s).1.last_greeted_time =
          dictSet s.last_greeted_time g inp.now) := by
  match hpend : s.name_to_greet_after_zoom with
  | none =>
    have hE : zoomPhase inp s =
        ({ s with zoom_active := false,
                  current_processing_bbox_for_zoom := none,
                  name_to_greet_after_zoom := none }, none) := by
      unfold zoomPhase
      rw [hpend]
      simp [hz, ht]
    rw [hE]
    exact ⟨rfl, rfl, rfl, Or.inl ⟨rfl, rfl⟩⟩
  | some n =>
    by_cases htruthy : n ≠ "" ∧ n ≠ "Unknown"
    · have hE : zoomPhase inp s =
          ({ s with zoom_active := false,
                    current_processing_bbox_for_zoom := none,
                    last_greeted_time := dictSet s.last_greeted_time n inp.now,
                    name_to_greet_after_zoom := none }, some n) := by
        unfold zoomPhase
        rw [hpend]
        simp [hz, ht, htruthy.1, htruthy.2]
      rw [hE]
      exact ⟨rfl, rfl, rfl, Or.inr ⟨n, rfl, rfl, rfl⟩⟩
    · have hE : zoomPhase inp s =
          ({ s with zoom_active := false,
                    current_processing_bbox_for_zoom := none,
                    name_to_greet_after_zoom := none }, none) := by
        unfold zoomPhase
        rw [hpend]
        simp only [hz, if_true, if_pos ht, if_neg htruthy]
      rw [hE]
      exact ⟨rfl, rfl, rfl, Or.inl ⟨rfl, rfl⟩⟩

/-- The detection phase never modifies the greeting-timestamp map. -/
lemma detectPhase_last_greeted (inp : LoopInput) (s : MainState) :
    (detectPhase inp s).last_greeted_time = s.last_greeted_time := by
  unfold detectPhase
  split
  · split
    · split
      · split
        · dsimp only
          split <;> rfl
        · rfl
      · rfl
    · rfl
  · rfl

/-- With no detection result, the detection phase only (at most) advances
the detection clock. -/
lemma detectPhase_det_none (inp : LoopInput) (s : MainState)
    (hd : inp.det = none) :
    detectPhase inp s = s ∨
      detectPhase inp s = { s with last_detection_run_time := inp.now } := by
  unfold detectPhase
  rw [hd]
  split
  · exact Or.inr rfl
  · exact Or.inl rfl

/-- **C2.** A zoom session entered with end time `T + D` and a recorded
positive box reports `ZOOM_ACTIVE` through every iteration with time
below `T + D`, unchanged and greeting nobody; at the first iteration with
time `≥ T + D` it transitions to idle (re-activation requires a fresh
detection), dispatches at most one greeting — only the session's recorded
pending target, whose `lastGreeted` timestamp is then stamped to `now` —
and clears the pending target. -/
theorem C2_zoom_session_lifecycle (s : MainState) (b : BBox)
    (hz : s.zoom_active = true)
    (hb : s.current_processing_bbox_for_zoom = some b)
    (hw : 0 < b.x2 - b.x1) (hh : 0 < b.y2 - b.y1) :
    (∀ inputs : List LoopInput,
        (∀ inp ∈ inputs, inp.now < s.zoom_return_time) →
        runTrace inputs s = (s, [])) ∧
    (∀ inp : LoopInput, s.zoom_return_time ≤ inp.now →
        ((mainStep inp s).1.zoom_active = true → inp.det ≠ none) ∧
        (∀ g, (mainStep inp s).2 = some g →
          s.name_to_greet_after_zoom = some g ∧
          dictGet (mainStep inp s).1.last_greeted_time g = some inp.now) ∧
        (inp.det = none → (mainStep inp s).1.zoom_active = false ∧
          (mainStep inp s).1.name_to_greet_after_zoom = none)) := by
  refine ⟨runTrace_zoom_hold s b hz hb hw hh, ?_⟩
  intro inp ht
  obtain ⟨hidle, hpend, -, hgreet⟩ := zoomPhase_end inp s hz ht
  have hnone : inp.det = none → (mainStep inp s).1.zoom_active = false ∧
      (mainStep inp s).1.name_to_greet_after_zoom = none := by
    intro hd
    rcases detectPhase_det_none inp (zoomPhase inp s).1 hd with h | h
    · rw [mainStep_fst, h]
      exact ⟨hidle, hpend⟩
    · rw [mainStep_fst, h]
      exact ⟨hidle, hpend⟩
  refine ⟨?_, ?_, hnone⟩
  · intro hact hd
    have h1 := (hnone hd).1
    rw [hact] at h1
    simp at h1
  · intro g hg
    have hg2 : (zoomPhase inp s).2 = some g := hg
    rcases hgreet with ⟨hnone2, -⟩ | ⟨g2, hsome, hpend2, hstamp⟩
    · rw [hnone2] at hg2
      exact absurd hg2 (by simp)
    · rw [hsome] at hg2
      have hgg : g2 = g := Option.some.inj hg2
      rw [hgg] at hpend2 hstamp
      refine ⟨hpend2, ?_⟩
      have hLG : (mainStep inp s).1.last_greeted_time =
          (zoomPhase inp s).1.last_greeted_time := by
        rw [mainStep_fst]
        exact detectPhase_last_greeted inp (zoomPhase inp s).1
      rw [hLG, hstamp]
      exact dictGet_dictSet_self s.last_greeted_time g inp.now

/-- Witness for C2 at a concrete session state. -/
theorem C2_zoom_session_lifecycle_witness :
    ((MainState.mk true 10 (some "Alice") 0 (some (BBox.mk 0 0 50 60))
        []).zoom_active = true) ∧
    ((MainState.mk true 10 (some "Alice") 0 (some (BBox.mk 0 0 50 60))
        []).current_processing_bbox_for_zoom = some (BBox.mk 0 0 50 60)) ∧
    (0 < (BBox.mk 0 0 50 60).x2 - (BBox.mk 0 0 50 60).x1) ∧
    (0 < (BBox.mk 0 0 50 60).y2 - (BBox.mk 0 0 50 60).y1) ∧
    ((∀ inputs : List LoopInput,
        (∀ inp ∈ inputs,
          inp.now < (MainState.mk true 10 (some "Alice") 0
            (some (BBox.mk 0 0 50 60)) []).zoom_return_time) →
        runTrace inputs (MainState.mk true 10 (some "Alice") 0
          (some (BBox.mk 0 0 50 60)) []) =
          (MainState.mk true 10 (some "Alice") 0
            (some (BBox.mk 0 0 50 60)) [], [])) ∧
      (∀ inp : LoopInput,
        (MainState.mk true 10 (some "Alice") 0 (some (BBox.mk 0 0 50 60))
          []).zoom_return_time ≤ inp.now →
        ((mainStep inp (MainState.mk true 10 (some "Alice") 0
            (some (BBox.mk 0 0 50 60)) [])).1.zoom_active = true →
          inp.det ≠ none) ∧
        (∀ g, (mainStep inp (MainState.mk true 10 (some "Alice") 0
            (some (BBox.mk 0 0 50 60)) [])).2 = some g →
          (MainState.mk true 10 (some "Alice") 0 (some (BBox.mk 0 0 50 60))
            []).name_to_greet_after_zoom = some g ∧
          dictGet (mainStep inp (MainState.mk true 10 (some "Alice") 0
            (some (BBox.mk 0 0 50 60)) [])).1.last_greeted_time g =
            some inp.now) ∧
        (inp.det = none →
          (mainStep inp (MainState.mk true 10 (some "Alice") 0
            (some (BBox.mk 0 0 50 60)) [])).1.zoom_active = false ∧
          (mainStep inp (MainState.mk true 10 (some "Alice") 0
            (some (BBox.mk 0 0 50 60)) [])).1.name_to_greet_after_zoom =
            none))) :=
  ⟨rfl, rfl, by decide, by decide,
    C2_zoom_session_lifecycle
      (MainState.mk true 10 (some "Alice") 0 (some (BBox.mk 0 0 50 60)) [])
      (BBox.mk 0 0 50 60) rfl rfl (by decide) (by decide)⟩

/-- **C3.** When an idle, detection-due iteration recognizes a proper name
(not `"Unknown"`), the zoom session activates with end time `now +
ZOOM_DURATION_SECONDS` regardless, and the pending greet target is
recorded iff the name has no `lastGreeted` entry or its cooldown has
strictly elapsed; otherwise no pending greet is scheduled. -/
theorem C3_pending_greet_cooldown (inp : LoopInput) (s : MainState)
    (recognized_name : String) (face_bbox : BBox)
    (hz : s.zoom_active = false)
    (hint : DETECTION_INTERVAL_SECONDS < inp.now - s.last_detection_run_time)
    (hdet : inp.det = some (recognized_name, face_bbox))
    (hn1 : recognized_name ≠ "Unknown") (hn2 : recognized_name ≠ "") :
    (mainStep inp s).1.zoom_active = true ∧
    (mainStep inp s).1.zoom_return_time = inp.now + ZOOM_DURATION_SECONDS ∧
    ((mainStep inp s).1.name_to_greet_after_zoom = some recognized_name ↔
      (dictGet s.last_greeted_time recognized_name = none ∨
        GREETING_COOLDOWN_SECONDS < inp.now -
          (dictGet s.last_greeted_time recognized_name).getD 0)) ∧
    ((mainStep inp s).1.name_to_greet_after_zoom = some recognized_name ∨
      (mainStep inp s).1.name_to_greet_after_zoom = none) := by
  have hzoom : zoomPhase inp s = (s, none) := by
    unfold zoomPhase
    simp [hz]
  have hstep : (mainStep inp s).1 = detectPhase inp s := by
    rw [mainStep_fst, hzoom]
  rw [hstep]
  by_cases hc : dictGet s.last_greeted_time recognized_name = none ∨
      GREETING_COOLDOWN_SECONDS < inp.now -
        (dictGet s.last_greeted_time recognized_name).getD 0
  · have hD : detectPhase inp s =
        { s with last_detection_run_time := inp.now,
                 current_processing_bbox_for_zoom := some face_bbox,
                 zoom_active := true,
                 zoom_return_time := inp.now + ZOOM_DURATION_SECONDS,
                 name_to_greet_after_zoom := some recognized_name } := by
      unfold detectPhase
      rw [if_pos ⟨hz, hint⟩, hdet]
      simp [hn2, hn1, hc]
    rw [hD]
    exact ⟨rfl, rfl, ⟨fun _ => hc, fun _ => rfl⟩, Or.inl rfl⟩
  · have hD : detectPhase inp s =
        { s with last_detection_run_time := inp.now,
                 current_processing_bbox_for_zoom := some face_bbox,
                 zoom_active := true,
                 zoom_return_time := inp.now + ZOOM_DURATION_SECONDS,
                 name_to_greet_after_zoom := none } := by
      unfold detectPhase
      rw [if_pos ⟨hz, hint⟩, hdet]
      simp [hn2, hn1, hc]
    rw [hD]
    exact ⟨rfl, rfl,
      ⟨fun habs => Option.noConfusion habs, fun h => absurd h hc⟩,
      Or.inr rfl⟩

/-- Witness for C3: the second match for `"Bob"` 4 s after his last greet
(inside the 5 s cooldown) schedules no pending greet but still zooms. -/
theorem C3_pending_greet_cooldown_witness :
    ((MainState.mk false 0 none 0 none [("Bob", 16)]).zoom_active = false) ∧
    (DETECTION_INTERVAL_SECONDS <
      (LoopInput.mk 20 (PyFrame.mk 720 1280)
        (some ("Bob", BBox.mk 0 0 9 9)) true).now -
      (MainState.mk false 0 none 0 none [("Bob", 16)]).last_detection_run_time) ∧
    ((LoopInput.mk 20 (PyFrame.mk 720 1280)
        (some ("Bob", BBox.mk 0 0 9 9)) true).det =
      some ("Bob", BBox.mk 0 0 9 9)) ∧
    (("Bob" : String) ≠ "Unknown") ∧ (("Bob" : String) ≠ "") ∧
    ((mainStep (LoopInput.mk 20 (PyFrame.mk 720 1280)
        (some ("Bob", BBox.mk 0 0 9 9)) true)
        (MainState.mk false 0 none 0 none [("Bob", 16)])).1.zoom_active = true ∧
      (mainStep (LoopInput.mk 20 (PyFrame.mk 720 1280)
        (some ("Bob", BBox.mk 0 0 9 9)) true)
        (MainState.mk false 0 none 0 none [("Bob", 16)])).1.zoom_return_time =
        (LoopInput.mk 20 (PyFrame.mk 720 1280)
          (some ("Bob", BBox.mk 0 0 9 9)) true).now + ZOOM_DURATION_SECONDS ∧
      ((mainStep (LoopInput.mk 20 (PyFrame.mk 720 1280)
          (some ("Bob", BBox.mk 0 0 9 9)) true)
          (MainState.mk false 0 none 0 none
            [("Bob", 16)])).1.name_to_greet_after_zoom = some "Bob" ↔
        (dictGet (MainState.mk false 0 none 0 none
            [("Bob", 16)]).last_greeted_time "Bob" = none ∨
          GREETING_COOLDOWN_SECONDS <
            (LoopInput.mk 20 (PyFrame.mk 720 1280)
              (some ("Bob", BBox.mk 0 0 9 9)) true).now -
            (dictGet (MainState.mk false 0 none 0 none
              [("Bob", 16)]).last_greeted_time "Bob").getD 0)) ∧
      ((mainStep (LoopInput.mk 20 (PyFrame.mk 720 1280)
          (some ("Bob", BBox.mk 0 0 9 9)) true)
          (MainState.mk false 0 none 0 none
            [("Bob", 16)])).1.name_to_greet_after_zoom = some "Bob" ∨
        (mainStep (LoopInput.mk 20 (PyFrame.mk 720 1280)
          (some ("Bob", BBox.mk 0 0 9 9)) true)
          (MainState.mk false 0 none 0 none
            [("Bob", 16)])).1.name_to_greet_after_zoom = none)) :=
  ⟨rfl, by norm_num [DETECTION_INTERVAL_SECONDS], rfl, by decide, by decide,
    C3_pending_greet_cooldown
      (LoopInput.mk 20 (PyFrame.mk 720 1280)
        (some ("Bob", BBox.mk 0 0 9 9)) true)
      (MainState.mk false 0 none 0 none [("Bob", 16)])
      "Bob" (BBox.mk 0 0 9 9) rfl
      (by norm_num [DETECTION_INTERVAL_SECONDS]) rfl
      (by decide) (by decide)⟩

/-- **C10.** For every frame and every box of strictly positive width and
height, `get_zoomed_region` never returns `None` but an image of exactly
the target display size (black on an empty crop or resize failure); it
returns `None` only for a `None` frame, a `None` box, or a degenerate
box — so the main loop's mid-window force-transition to idle is
unreachable while the recorded box is positive. -/
theorem C10_zoomed_region_never_none (fr : PyFrame) (b : BBox)
    (target : ℕ × ℕ) (ok : Bool)
    (hw : 0 < b.x2 - b.x1) (hh : 0 < b.y2 - b.y1) :
    (∃ img, get_zoomed_region (some fr) (some b) target ok = some img ∧
        zoomImageSize img = target) ∧
    (∀ bb tg ok2, get_zoomed_region none bb tg ok2 = none) ∧
    (∀ f2 tg ok2, get_zoomed_region (some f2) none tg ok2 = none) ∧
    (∀ (f2 : PyFrame) (b2 : BBox) tg ok2,
        b2.x2 - b2.x1 ≤ 0 ∨ b2.y2 - b2.y1 ≤ 0 →
        get_zoomed_region (some f2) (some b2) tg ok2 = none) ∧
    (∀ (inp : LoopInput) (s : MainState), s.zoom_active = true →
        inp.now < s.zoom_return_time →
        s.current_processing_bbox_for_zoom = some b →
        (mainStep inp s).1.zoom_active = true) := by
  refine ⟨get_zoomed_region_pos fr b target ok hw hh,
    fun bb tg ok2 => by cases bb <;> rfl,
    fun f2 tg ok2 => rfl,
    fun f2 b2 tg ok2 hdeg => ?_,
    fun inp s hz ht hb => ?_⟩
  · simp only [get_zoomed_region]
    rw [if_pos hdeg]
  · rw [mainStep_zoom_hold inp s b hz ht hb hw hh]
    exact hz

/-- Witness for C10 at a concrete frame and box. -/
theorem C10_zoomed_region_never_none_witness :
    (0 < (BBox.mk 0 0 50 60).x2 - (BBox.mk 0 0 50 60).x1) ∧
    (0 < (BBox.mk 0 0 50 60).y2 - (BBox.mk 0 0 50 60).y1) ∧
    ((∃ img, get_zoomed_region (some (PyFrame.mk 720 1280))
        (some (BBox.mk 0 0 50 60)) (1280, 720) true = some img ∧
        zoomImageSize img = (1280, 720)) ∧
      (∀ bb tg ok2, get_zoomed_region none bb tg ok2 = none) ∧
      (∀ f2 tg ok2, get_zoomed_region (some f2) none tg ok2 = none) ∧
      (∀ (f2 : PyFrame) (b2 : BBox) tg ok2,
          b2.x2 - b2.x1 ≤ 0 ∨ b2.y2 - b2.y1 ≤ 0 →
          get_zoomed_region (some f2) (some b2) tg ok2 = none) ∧
      (∀ (inp : LoopInput) (s : MainState), s.zoom_active = true →
          inp.now < s.zoom_return_time →
          s.current_processing_bbox_for_zoom = some (BBox.mk 0 0 50 60) →
          (mainStep inp s).1.zoom_active = true)) :=
  ⟨by decide, by decide,
    C10_zoomed_region_never_none (PyFrame.mk 720 1280) (BBox.mk 0 0 50 60)
      (1280, 720) true (by decide) (by decide)⟩

/-- The validation loop of `load_known_faces` is the ordered filter of the
valid entries. -/
lemma load_foldl_filterMap (items : List RawItem) :
    ∀ acc : List EnrolledFace,
      items.foldl
        (fun valid_data item =>
          match validEntry item with
          | some e => valid_data ++ [e]
          | none => valid_data) acc = acc ++ items.filterMap validEntry := by
  induction items with
  | nil => intro acc; simp
  | cons item tl ih =>
    intro acc
    simp only [List.foldl_cons, List.filterMap_cons]
    match hv : validEntry item with
    | some e =>
      rw [ih (acc ++ [e])]
      simp
    | none =>
      rw [ih acc]

/-- **C4.** `load()` never fails its caller: a missing file, unreadable or
corrupt content, and non-list data all yield the empty store, and a list
yields exactly its valid entries in order — entries that are not dicts,
lack the `name` or `embedding` field, or have a non-string name are
dropped silently. -/
theorem C4_load_validates_never_fails :
    load_known_faces .missing = [] ∧
    load_known_faces .unreadable = [] ∧
    load_known_faces (.readable .notAList) = [] ∧
    ∀ items : List RawItem,
      load_known_faces (.readable (.aList items)) =
        items.filterMap validEntry := by
  refine ⟨rfl, rfl, rfl, fun items => ?_⟩
  simpa using load_foldl_filterMap items []

/-- Valid persisted records round-trip through the validation filter. -/
lemma filterMap_validEntry_map (data : List EnrolledFace) :
    ((data.map (fun e =>
        RawItem.mk true (some (.str e.name)) (some e.embedding))).filterMap
      validEntry) = data := by
  induction data with
  | nil => rfl
  | cons e tl ih =>
    simp only [List.map_cons, List.filterMap_cons, validEntry, if_true]
    rw [ih]

/-- Saving successfully then loading recovers exactly the saved records. -/
lemma load_readPersisted_complete (data : List EnrolledFace) :
    load_known_faces (readPersisted (.complete data)) = data := by
  have h1 : load_known_faces (readPersisted (.complete data)) =
      (data.map (fun e =>
        RawItem.mk true (some (.str e.name)) (some e.embedding))).filterMap
        validEntry := by
    simpa using load_foldl_filterMap (data.map (fun e =>
      RawItem.mk true (some (.str e.name)) (some e.embedding))) []
  rw [h1, filterMap_validEntry_map]

/-- Counterexample to **C5**: `save` opens the file with mode `'wb'`
(truncating it) before `pickle.dump` writes; a dump that fails part-way
leaves the file neither holding the complete new store nor preserving the
previously persisted content. -/
theorem C5_counterexample :
    (save_known_faces [EnrolledFace.mk "Alice" [1]]
        (.complete [EnrolledFace.mk "Bob" [1]]) .failMidway).1 ≠
      PersistedFile.complete [EnrolledFace.mk "Alice" [1]] ∧
    (save_known_faces [EnrolledFace.mk "Alice" [1]]
        (.complete [EnrolledFace.mk "Bob" [1]]) .failMidway).1 ≠
      PersistedFile.complete [EnrolledFace.mk "Bob" [1]] ∧
    load_known_faces (readPersisted (save_known_faces
        [EnrolledFace.mk "Alice" [1]]
        (.complete [EnrolledFace.mk "Bob" [1]]) .failMidway).1) = [] :=
  ⟨fun h => PersistedFile.noConfusion h,
    fun h => PersistedFile.noConfusion h, rfl⟩

/-- **C5 (amended).** `save(store)` overwrites the file in place (truncate
then write), so it is not atomic: a successful dump leaves the complete
new store (which `load` round-trips exactly), while a dump failing
part-way destroys the previous content, leaving a truncated file that
`load` later recovers as the empty store; the failure is caught and
logged — the function returns normally, never raising to the caller, and
the in-memory store value passed in is untouched. -/
theorem C5_save_not_atomic_but_contained (data : List EnrolledFace)
    (file : PersistedFile) :
    (save_known_faces data file .success).1 = .complete data ∧
    load_known_faces
      (readPersisted (save_known_faces data file .success).1) = data ∧
    (save_known_faces data file .failMidway).1 = .truncated ∧
    load_known_faces
      (readPersisted (save_known_faces data file .failMidway).1) = [] ∧
    (save_known_faces data file .failMidway).2 = false :=
  ⟨rfl, load_readPersisted_complete data, rfl, rfl, rfl⟩

/-- Counterexample to **C6**: a persisted file already containing two
valid records named `"A"` loads as a store with a duplicated name —
`load` validates single entries but does not deduplicate names. -/
theorem C6_counterexample :
    ¬ ((load_known_faces (.readable (.aList
        [RawItem.mk true (some (.str "A")) (some [1]),
          RawItem.mk true (some (.str "A")) (some [0])]))).map
        EnrolledFace.name).Nodup := by
  decide

/-- **C6 (amended).** Enrollment preserves the at-most-one-record-per-name
invariant: from any duplicate-free store, the replace-or-append on a
trimmed non-empty name yields a duplicate-free store; and `load` yields a
duplicate-free store whenever the file's valid entries carry pairwise
distinct names (it preserves, but does not establish, the invariant). -/
theorem C6_unique_names_amended (db db' : List EnrolledFace)
    (person_name : String) (embedding : List ℚ) (overwrite : Bool)
    (hnodup : (db.map EnrolledFace.name).Nodup)
    (henroll : enroll db person_name embedding overwrite = some db') :
    (db'.map EnrolledFace.name).Nodup ∧
    ∀ items : List RawItem,
      ((items.filterMap validEntry).map EnrolledFace.name).Nodup →
      ((load_known_faces (.readable (.aList items))).map
        EnrolledFace.name).Nodup := by
  constructor
  · simp only [enroll] at henroll
    split at henroll
    · exact absurd henroll (by simp)
    · split at henroll
      · split at henroll
        · -- collision confirmed: drop the old entries, append the new one
          obtain rfl : db' = (db.filter
              (fun f => f.name ≠ pyStrip person_name)) ++
              [EnrolledFace.mk (pyStrip person_name) embedding] :=
            (Option.some.inj henroll).symm
          rw [List.map_append]
          apply List.Nodup.append
          · exact List.Nodup.sublist
              (List.Sublist.map EnrolledFace.name (List.filter_sublist db))
              hnodup
          · simp
          · intro a ha hb
            simp only [List.map_cons, List.map_nil, List.mem_singleton] at hb
            subst hb
            obtain ⟨f, hf, hfa⟩ := List.mem_map.mp ha
            have := (List.mem_filter.mp hf).2
            simp only [decide_eq_true_eq] at this
            exact this hfa
        · exact absurd henroll (by simp)
      · -- fresh name: append
        next h1 =>
          obtain rfl : db' = db ++
              [EnrolledFace.mk (pyStrip person_name) embedding] :=
            (Option.some.inj henroll).symm
          rw [List.map_append]
          apply List.Nodup.append hnodup (by simp)
          intro a ha hb
          simp only [List.map_cons, List.map_nil, List.mem_singleton] at hb
          subst hb
          exact h1 ha
  · intro items hvn
    have h4 : load_known_faces (.readable (.aList items)) =
        items.filterMap validEntry := by
      simpa using load_foldl_filterMap items []
    rw [h4]
    exact hvn

/-- Witness for C6 at a concrete one-entry store and a fresh name. -/
theorem C6_unique_names_amended_witness :
    (([EnrolledFace.mk "Alice" [1]].map EnrolledFace.name).Nodup) ∧
    (enroll [EnrolledFace.mk "Alice" [1]] "Bob" [0] false =
      some [EnrolledFace.mk "Alice" [1], EnrolledFace.mk "Bob" [0]]) ∧
    ((([EnrolledFace.mk "Alice" [1], EnrolledFace.mk "Bob" [0]]).map
        EnrolledFace.name).Nodup ∧
      ∀ items : List RawItem,
        ((items.filterMap validEntry).map EnrolledFace.name).Nodup →
        ((load_known_faces (.readable (.aList items))).map
          EnrolledFace.name).Nodup) :=
  ⟨by decide, by decide,
    C6_unique_names_amended [EnrolledFace.mk "Alice" [1]]
      [EnrolledFace.mk "Alice" [1], EnrolledFace.mk "Bob" [0]]
      "Bob" [0] false (by decide) (by decide)⟩

/-- Counterexample to **C7**: the gate stamps the *completion* time of a
successful `say` call, and a request arriving during a call blocks on the
lock.  A first request enters the gate at `t = 1` and its `say` call runs
until `t = 4`; a second request arriving at `t = 1.6` — more than the
0.5 s interval after the first one *started* — only acquires the lock at
`t = 4`, finds `4 - 4 < 0.5` and is dropped, although the claim says it
must be invoked. -/
theorem C7_counterexample :
    speak_task 0 1 4 .ok = (4, true) ∧
    (speak_task 4 4 4 .ok).2 = false ∧
    TTS_MIN_INTERVAL < (8/5 : ℚ) - 1 := by
  refine ⟨?_, ?_, ?_⟩
  · norm_num [speak_task, TTS_MIN_INTERVAL]
  · norm_num [speak_task, TTS_MIN_INTERVAL]
  · norm_num [TTS_MIN_INTERVAL]

/-- **C7 (amended).** A speech request is invoked iff, at the moment its
background task acquires the serializing lock, at least
`TTS_MIN_INTERVAL` has elapsed since the timestamp of the last
*successful* invocation's *completion* (requests arriving during an
ongoing call wait for the lock rather than being judged at arrival);
dropped requests are not queued and leave the gate unchanged, and only a
successful invocation advances the gate timestamp — to its own completion
time. -/
theorem C7_tts_gate_amended (last enter endT : ℚ) (oc : SayOutcome) :
    ((speak_task last enter endT oc).2 = true ↔
      TTS_MIN_INTERVAL ≤ enter - last) ∧
    (enter - last < TTS_MIN_INTERVAL →
      speak_task last enter endT oc = (last, false)) ∧
    (TTS_MIN_INTERVAL ≤ enter - last →
      speak_task last enter endT .ok = (endT, true) ∧
      speak_task last enter endT .failed = (last, true)) := by
  refine ⟨⟨?_, ?_⟩, ?_, ?_⟩
  · intro hinv
    by_contra hlt
    push_neg at hlt
    simp [speak_task, hlt] at hinv
  · intro hge
    have hn : ¬ enter - last < TTS_MIN_INTERVAL := not_lt.mpr hge
    cases oc <;> simp [speak_task, hn]
  · intro hlt
    simp [speak_task, hlt]
  · intro hge
    have hn : ¬ enter - last < TTS_MIN_INTERVAL := not_lt.mpr hge
    constructor <;> simp [speak_task, hn]

/-- Witness for C7 at a concrete gate state. -/
theorem C7_tts_gate_amended_witness :
    (TTS_MIN_INTERVAL ≤ (1 : ℚ) - 0) ∧
    (speak_task 0 1 4 .ok = (4, true) ∧
      speak_task 0 1 4 .failed = (0, true)) :=
  ⟨by norm_num [TTS_MIN_INTERVAL],
    (C7_tts_gate_amended 0 1 4 .ok).2.2
      (by norm_num [TTS_MIN_INTERVAL])⟩

/-- Counterexample to **C9**: end-of-input (`EOFError`) at the name prompt
exits the enrollment loop (`break` at `face_enroll.py` line 143) instead
of continuing it. -/
theorem C9_counterexample :
    handle_name_prompt .endOfInput = .exitLoop ∧
    LoopControl.exitLoop ≠ LoopControl.continueLoop :=
  ⟨rfl, fun h => LoopControl.noConfusion h⟩

/-- **C9 (amended).** At the live-enrollment name prompt, a keyboard
interrupt, the `cancel` token (any case) and empty input are all handled
as a no-op continuation of the loop, and the store-append path is reached
only for a stripped, non-empty, non-`cancel` name; input-stream
termination (EOF) is also handled without a crash and without touching
the store, but it exits the loop cleanly rather than continuing it. -/
theorem C9_prompt_cancellation_amended (raw : String)
    (hcancel : pyLower (pyStrip raw) = "cancel" ∨ pyStrip raw = "") :
    handle_name_prompt .keyboardInterrupt = .continueLoop ∧
    handle_name_prompt (.entered raw) = .continueLoop ∧
    handle_name_prompt .endOfInput = .exitLoop ∧
    (∀ r n, handle_name_prompt r = .proceed n →
      ∃ raw2, r = .entered raw2 ∧ n = pyStrip raw2 ∧
        pyLower n ≠ "cancel" ∧ n ≠ "") := by
  refine ⟨rfl, ?_, rfl, ?_⟩
  · simp only [handle_name_prompt]
    rw [if_pos hcancel]
  · intro r n hp
    match r with
    | .keyboardInterrupt => exact absurd hp (fun h => LoopControl.noConfusion h)
    | .endOfInput => exact absurd hp (fun h => LoopControl.noConfusion h)
    | .entered raw2 =>
      simp only [handle_name_prompt] at hp
      by_cases hc : pyLower (pyStrip raw2) = "cancel" ∨ pyStrip raw2 = ""
      · rw [if_pos hc] at hp
        exact absurd hp (fun h => LoopControl.noConfusion h)
      · rw [if_neg hc] at hp
        push_neg at hc
        obtain ⟨h1, h2⟩ := hc
        have hn : pyStrip raw2 = n := LoopControl.proceed.inj hp
        exact ⟨raw2, rfl, hn.symm, hn ▸ h1, hn ▸ h2⟩

/-- Witness for C9 at the literal `cancel` token. -/
theorem C9_prompt_cancellation_amended_witness :
    (pyLower (pyStrip "cancel") = "cancel" ∨ pyStrip "cancel" = "") ∧
    (handle_name_prompt .keyboardInterrupt = .continueLoop ∧
      handle_name_prompt (.entered "cancel") = .continueLoop ∧
      handle_name_prompt .endOfInput = .exitLoop ∧
      (∀ r n, handle_name_prompt r = .proceed n →
        ∃ raw2, r = .entered raw2 ∧ n = pyStrip raw2 ∧
          pyLower n ≠ "cancel" ∧ n ≠ "")) :=
  ⟨Or.inl (by decide), C9_prompt_cancellation_amended "cancel"
    (Or.inl (by decide))⟩

end VinaFace
